import Mathlib

/-!
Shallow embedding of the ADX computation pipeline of `adxapp/utils.py`
(functions `wilder_sum_excel_style`, `detect_ohlc_columns`, `calculate_adx`).

Modelling conventions:
* A table cell is `Option ℚ`; `none` stands for a non-finite float
  (NaN or ±inf).  `pd.to_numeric(errors='coerce')` is the boundary of the
  model: non-numeric input cells arrive as `none`.
* Python/numpy floats are modelled by rationals; the claims under study are
  exact algebraic identities, which the float code is intended to realise.
* numpy comparisons with NaN are `False`; `np.nansum` treats NaN as 0;
  a pandas row-wise `max(axis=1)` skips NaN; `x / 0.0` is NaN or ±inf,
  hence `none` here.
-/

/-- A cell of the data frame: `some q` is a finite numeric value, `none` is
NaN / ±inf / missing. -/
abbrev Cell : Type := Option ℚ

/-- Pointwise subtraction, NaN-propagating (numpy `-`). -/
def cellSub (a b : Cell) : Cell :=
  match a, b with
  | some x, some y => some (x - y)
  | _, _ => none

/-- Pointwise addition, NaN-propagating (numpy `+`). -/
def cellAdd (a b : Cell) : Cell :=
  match a, b with
  | some x, some y => some (x + y)
  | _, _ => none

/-- Pointwise multiplication, NaN-propagating (numpy `*`). -/
def cellMul (a b : Cell) : Cell :=
  match a, b with
  | some x, some y => some (x * y)
  | _, _ => none

/-- Pointwise division.  A zero denominator yields NaN or ±inf in floats,
hence `none` in the model; an undefined operand propagates. -/
def cellDiv (a b : Cell) : Cell :=
  match a, b with
  | some x, some y => if y = 0 then none else some (x / y)
  | _, _ => none

/-- Absolute value (`Series.abs`), NaN-propagating. -/
def cellAbs (a : Cell) : Cell := Option.map abs a

/-- Binary maximum as in `DataFrame.max(axis=1)`: NaN entries are skipped
(default `skipna=True`); the result is NaN only when all entries are NaN. -/
def cellMax (a b : Cell) : Cell :=
  match a, b with
  | some x, some y => some (max x y)
  | some x, none => some x
  | none, some y => some y
  | none, none => none

/-- `np.nansum`: sum of a cell list treating undefined entries as 0. -/
def nansum (l : List Cell) : ℚ := (l.map (fun x => Option.getD x 0)).sum

/-- `Series.fillna(0)`: every undefined entry becomes the number 0. -/
def fillna0 (l : List Cell) : List Cell := l.map (fun x => some (Option.getD x 0))

/-- `Series.shift(1)`: cell `i` of the result is cell `i-1` of the input,
with NaN at index 0; the length is unchanged. -/
def shift1 (l : List Cell) : List Cell := List.take l.length (none :: l)

/-- Overwrite the first entry with NaN, as in
`df.loc[df.index[0], 'TR'] = np.nan` / `df.iloc[0, ...] = np.nan`. -/
def setHead (l : List Cell) : List Cell :=
  match l with
  | [] => []
  | _ :: t => none :: t

/-- One step of the Wilder recursion in `wilder_sum_excel_style`:
`result.iloc[i] = prev - (prev / n) + arr[i]`, with NaN propagation: the
loop writes NaN when `prev` is NaN, and float `+` propagates NaN of
`arr[i]`. -/
def wilderStep (n : ℕ) (prev v : Cell) : Cell :=
  match prev, v with
  | some p, some x => some (p - p / (n : ℚ) + x)
  | _, _ => none

/-- The tail of the smoothed series built by the loop
`for i in range(n + 1, len(arr))` of `wilder_sum_excel_style`: each output
cell is `wilderStep` of the previous output cell and the current raw cell. -/
def wilderTail (n : ℕ) (prev : Cell) : List Cell → List Cell
  | [] => []
  | v :: rest => wilderStep n prev v :: wilderTail n (wilderStep n prev v) rest

/-- `wilder_sum_excel_style(series, n)`: all-NaN when `len(series) <= n`;
otherwise NaN below index `n`, the seed `np.nansum(arr[1:n+1])` at index
`n`, and the Wilder recursion from index `n+1` on. -/
def wilder_sum_excel_style (series : List Cell) (n : ℕ) : List Cell :=
  if series.length ≤ n then List.replicate series.length none
  else
    List.replicate n none ++
      some (nansum (List.take n (List.drop 1 series))) ::
        wilderTail n (some (nansum (List.take n (List.drop 1 series))))
          (List.drop (n + 1) series)

theorem wilderTail_length (n : ℕ) (prev : Cell) (l : List Cell) :
    (wilderTail n prev l).length = l.length := by
  induction l generalizing prev with
  | nil => rfl
  | cons v rest ih => simp [wilderTail, ih]

theorem wilderTail_zero (n : ℕ) (prev : Cell) (l : List Cell) :
    (wilderTail n prev l)[0]? = Option.map (wilderStep n prev) l[0]? := by
  cases l <;> simp [wilderTail]

theorem wilderTail_succ (n : ℕ) (l : List Cell) (prev : Cell) (j : ℕ) :
    (wilderTail n prev l)[j + 1]? =
      Option.bind (wilderTail n prev l)[j]?
        (fun p => Option.map (wilderStep n p) l[j + 1]?) := by
  induction l generalizing prev j with
  | nil => simp [wilderTail]
  | cons v rest ih =>
      cases j with
      | zero =>
          simp only [wilderTail, List.getElem?_cons_succ, List.getElem?_cons_zero,
            Option.bind_some]
          exact wilderTail_zero n (wilderStep n prev v) rest
      | succ j =>
          simp only [wilderTail, List.getElem?_cons_succ]
          exact ih (wilderStep n prev v) j

theorem wilder_length (series : List Cell) (n : ℕ) :
    (wilder_sum_excel_style series n).length = series.length := by
  unfold wilder_sum_excel_style
  split
  · simp
  · rename_i h
    simp [wilderTail_length]
    omega

theorem wilder_short (series : List Cell) (n : ℕ) (h : series.length ≤ n) (i : ℕ)
    (hi : i < series.length) :
    (wilder_sum_excel_style series n)[i]? = some none := by
  unfold wilder_sum_excel_style
  rw [if_pos h]
  simp [hi]

theorem wilder_below_seed (series : List Cell) (n : ℕ) (h : n < series.length)
    (i : ℕ) (hi : i < n) :
    (wilder_sum_excel_style series n)[i]? = some none := by
  unfold wilder_sum_excel_style
  rw [if_neg (by omega)]
  rw [List.getElem?_append]
  simp [hi]

theorem wilder_seed (series : List Cell) (n : ℕ) (h : n < series.length) :
    (wilder_sum_excel_style series n)[n]? =
      some (some (nansum (List.take n (List.drop 1 series)))) := by
  unfold wilder_sum_excel_style
  rw [if_neg (by omega)]
  rw [List.getElem?_append_right (by simp)]
  simp

theorem wilder_after (series : List Cell) (n : ℕ) (h : n < series.length) (j : ℕ) :
    (wilder_sum_excel_style series n)[n + 1 + j]? =
      (wilderTail n (some (nansum (List.take n (List.drop 1 series))))
        (List.drop (n + 1) series))[j]? := by
  unfold wilder_sum_excel_style
  rw [if_neg (by omega)]
  rw [List.getElem?_append_right (by simp; omega)]
  have : n + 1 + j - (List.replicate n (none : Cell)).length = j + 1 := by
    simp; omega
  rw [this, List.getElem?_cons_succ]

theorem wilder_rec (series : List Cell) (n : ℕ) (i : ℕ) (hn : n < i)
    (hlen : i < series.length) (p x : ℚ)
    (hp : (wilder_sum_excel_style series n)[i - 1]? = some (some p))
    (hx : series[i]? = some (some x)) :
    (wilder_sum_excel_style series n)[i]? = some (some (p - p / (n : ℚ) + x)) := by
  have h : n < series.length := by omega
  obtain ⟨j, rfl⟩ : ∃ j, i = n + 1 + j := ⟨i - n - 1, by omega⟩
  cases j with
  | zero =>
      rw [wilder_after series n h 0, wilderTail_zero]
      have hd : (List.drop (n + 1) series)[0]? = some (some x) := by
        rw [List.getElem?_drop]
        simpa using hx
      have hseed : (wilder_sum_excel_style series n)[n]? =
          some (some (nansum (List.take n (List.drop 1 series)))) :=
        wilder_seed series n h
      have : n + 1 + 0 - 1 = n := by omega
      rw [this] at hp
      rw [hp] at hseed
      have hps : some p = some (nansum (List.take n (List.drop 1 series))) := by
        injection hseed.symm with h1
        exact h1 ▸ rfl
      injection hps with h2
      rw [hd, ← h2]
      rfl
  | succ j =>
      rw [wilder_after series n h (j + 1), wilderTail_succ]
      have hprev : (wilderTail n (some (nansum (List.take n (List.drop 1 series))))
          (List.drop (n + 1) series))[j]? = some (some p) := by
        rw [← wilder_after series n h j]
        have : n + 1 + (j + 1) - 1 = n + 1 + j := by omega
        rwa [this] at hp
      have hd : (List.drop (n + 1) series)[j + 1]? = some (some x) := by
        rw [List.getElem?_drop]
        exact hx
      rw [hprev, hd]
      rfl

/-- One step of the ADX recursion in `calculate_adx`:
`adx.iloc[i] = ((prev * (N - 1)) + df['DX'].iloc[i]) / N`. -/
def adxStep (n : ℕ) (p v : ℚ) : ℚ := (p * ((n : ℚ) - 1) + v) / (n : ℚ)

/-- The tail of the ADX series built by the loop
`for i in range(end + 1, len(df))` of `calculate_adx`. -/
def adxTail (n : ℕ) (prev : ℚ) : List ℚ → List ℚ
  | [] => []
  | v :: rest => adxStep n prev v :: adxTail n (adxStep n prev v) rest

/-- The ADX column of `calculate_adx` as a function of the (everywhere
defined) DX column: all-NaN unless the table reaches index `2n-1`;
the seed `df['DX'].iloc[n:2n].mean()` at index `2n-1`; the Wilder/ADX
recursion afterwards.  `n` is the source's constant `N = 14`. -/
def adxFrom (n : ℕ) (dx : List ℚ) : List Cell :=
  if dx.length ≤ 2 * n - 1 then List.replicate dx.length none
  else
    List.replicate (2 * n - 1) none ++
      some ((List.take n (List.drop n dx)).sum / (n : ℚ)) ::
        List.map some
          (adxTail n ((List.take n (List.drop n dx)).sum / (n : ℚ))
            (List.drop (2 * n) dx))

theorem adxTail_length (n : ℕ) (prev : ℚ) (l : List ℚ) :
    (adxTail n prev l).length = l.length := by
  induction l generalizing prev with
  | nil => rfl
  | cons v rest ih => simp [adxTail, ih]

theorem adxTail_zero (n : ℕ) (prev : ℚ) (l : List ℚ) :
    (adxTail n prev l)[0]? = Option.map (adxStep n prev) l[0]? := by
  cases l <;> simp [adxTail]

theorem adxTail_succ (n : ℕ) (l : List ℚ) (prev : ℚ) (j : ℕ) :
    (adxTail n prev l)[j + 1]? =
      Option.bind (adxTail n prev l)[j]?
        (fun p => Option.map (adxStep n p) l[j + 1]?) := by
  induction l generalizing prev j with
  | nil => simp [adxTail]
  | cons v rest ih =>
      cases j with
      | zero =>
          simp only [adxTail, List.getElem?_cons_succ, List.getElem?_cons_zero,
            Option.bind_some]
          exact adxTail_zero n (adxStep n prev v) rest
      | succ j =>
          simp only [adxTail, List.getElem?_cons_succ]
          exact ih (adxStep n prev v) j

theorem adxFrom_length (n : ℕ) (hn : 0 < n) (dx : List ℚ) :
    (adxFrom n dx).length = dx.length := by
  unfold adxFrom
  split
  · simp
  · rename_i h
    simp [adxTail_length]
    omega

theorem adxFrom_below_seed (n : ℕ) (dx : List ℚ) (h : 2 * n - 1 < dx.length)
    (i : ℕ) (hi : i < 2 * n - 1) :
    (adxFrom n dx)[i]? = some none := by
  unfold adxFrom
  rw [if_neg (by omega)]
  rw [List.getElem?_append]
  simp [hi]

theorem adxFrom_seed (n : ℕ) (dx : List ℚ) (h : 2 * n - 1 < dx.length) :
    (adxFrom n dx)[2 * n - 1]? =
      some (some ((List.take n (List.drop n dx)).sum / (n : ℚ))) := by
  unfold adxFrom
  rw [if_neg (by omega)]
  rw [List.getElem?_append_right (by simp)]
  simp

theorem adxFrom_after (n : ℕ) (hn : 0 < n) (dx : List ℚ) (h : 2 * n - 1 < dx.length) (j : ℕ) :
    (adxFrom n dx)[2 * n + j]? =
      (List.map some
        (adxTail n ((List.take n (List.drop n dx)).sum / (n : ℚ))
          (List.drop (2 * n) dx)))[j]? := by
  unfold adxFrom
  rw [if_neg (by omega)]
  rw [List.getElem?_append_right (by simp; omega)]
  have : 2 * n + j - (List.replicate (2 * n - 1) (none : Cell)).length = j + 1 := by
    simp; omega
  rw [this, List.getElem?_cons_succ]

theorem adxFrom_rec (n : ℕ) (dx : List ℚ) (hn : 0 < n) (i : ℕ)
    (hi : 2 * n - 1 < i) (hlen : i < dx.length) (p v : ℚ)
    (hp : (adxFrom n dx)[i - 1]? = some (some p))
    (hv : dx[i]? = some v) :
    (adxFrom n dx)[i]? = some (some (adxStep n p v)) := by
  have h : 2 * n - 1 < dx.length := by omega
  obtain ⟨j, rfl⟩ : ∃ j, i = 2 * n + j := ⟨i - 2 * n, by omega⟩
  cases j with
  | zero =>
      rw [adxFrom_after n hn dx h 0, List.getElem?_map, adxTail_zero]
      have hd : (List.drop (2 * n) dx)[0]? = some v := by
        rw [List.getElem?_drop]
        simpa using hv
      have hseed := adxFrom_seed n dx h
      have : 2 * n + 0 - 1 = 2 * n - 1 := by omega
      rw [this] at hp
      rw [hp] at hseed
      have hps : p = (List.take n (List.drop n dx)).sum / (n : ℚ) := by
        injection hseed with h1
        injection h1
      rw [hd, ← hps]
      rfl
  | succ j =>
      rw [adxFrom_after n hn dx h (j + 1), List.getElem?_map, adxTail_succ]
      have hprev : (adxTail n ((List.take n (List.drop n dx)).sum / (n : ℚ))
          (List.drop (2 * n) dx))[j]? = some p := by
        have h2 := adxFrom_after n hn dx h j
        have : 2 * n + (j + 1) - 1 = 2 * n + j := by omega
        rw [this] at hp
        rw [h2, List.getElem?_map] at hp
        cases hq : (adxTail n ((List.take n (List.drop n dx)).sum / (n : ℚ))
            (List.drop (2 * n) dx))[j]? with
        | none => rw [hq] at hp; simp at hp
        | some q =>
            rw [hq] at hp
            simp at hp
            rw [hp]
      have hd : (List.drop (2 * n) dx)[j + 1]? = some v := by
        rw [List.getElem?_drop]
        exact hv
      rw [hprev, hd]
      rfl

/-- `df['UpMove'] = df['High'] - df['Prev_High']`. -/
def upMoveCol (high : List Cell) : List Cell :=
  List.zipWith cellSub high (shift1 high)

/-- `df['DownMove'] = df['Prev_Low'] - df['Low']`. -/
def downMoveCol (low : List Cell) : List Cell :=
  List.zipWith cellSub (shift1 low) low

/-- `np.where((a > b) & (a > 0), a, 0.0)`: numpy comparisons involving NaN
are `False`, so an undefined operand yields `0.0`, never NaN. -/
def dmSelect (a b : Cell) : Cell :=
  match a, b with
  | some x, some y => if y < x ∧ 0 < x then some x else some 0
  | _, _ => some 0

/-- The `'+DM 1'` column: the `np.where` selection, then the first row is
overwritten with NaN (`df.iloc[0, ...] = np.nan`). -/
def pDM1col (high low : List Cell) : List Cell :=
  setHead (List.zipWith dmSelect (upMoveCol high) (downMoveCol low))

/-- The `'-DM 1'` column, symmetric to `'+DM 1'`. -/
def mDM1col (high low : List Cell) : List Cell :=
  setHead (List.zipWith dmSelect (downMoveCol low) (upMoveCol high))

/-- The `'TR'` column: the row-wise NaN-skipping max of
`TR1 = High - Low`, `TR2 = |High - Prev_Close|`, `TR3 = |Low - Prev_Close|`,
with the first row overwritten with NaN. -/
def TRcol (high low close : List Cell) : List Cell :=
  setHead
    (List.zipWith cellMax
      (List.zipWith cellMax
        (List.zipWith cellSub high low)
        (List.map cellAbs (List.zipWith cellSub high (shift1 close))))
      (List.map cellAbs (List.zipWith cellSub low (shift1 close))))

/-- A DI column `(dm14 / tr14) * 100` (both `'+DI14'` and `'-DI14'` are
this function, applied to the respective smoothed DM column). -/
def DIcol (dm14 tr14 : List Cell) : List Cell :=
  List.zipWith (fun a b => cellMul (cellDiv a b) (some 100)) dm14 tr14

/-- `df['DX']` before the replace step:
`(df['DI 14 Diff'] / df['DI 14 Sum']) * 100`. -/
def DXraw (pdi mdi : List Cell) : List Cell :=
  List.zipWith (fun a b => cellMul (cellDiv a b) (some 100))
    (List.map cellAbs (List.zipWith cellSub pdi mdi))
    (List.zipWith cellAdd pdi mdi)

/-- `df['DX'].replace([np.inf, -np.inf, np.nan], 0)`: every non-finite
entry becomes the number 0, so the column is defined everywhere. -/
def replaceNonfinite (l : List Cell) : List Cell :=
  l.map (fun x => some (Option.getD x 0))

/-- `np.round` / `Series.round(6)` on an exact rational: round half to
even at the 6th decimal. -/
def roundHalfEven (x : ℚ) : ℤ :=
  if x - ⌊x⌋ < 1 / 2 then ⌊x⌋
  else if 1 / 2 < x - ⌊x⌋ then ⌊x⌋ + 1
  else if ⌊x⌋ % 2 = 0 then ⌊x⌋ else ⌊x⌋ + 1

/-- `df[num_cols].round(6)` on one cell; NaN stays NaN. -/
def round6 (q : ℚ) : ℚ := (roundHalfEven (q * 1000000) : ℚ) / 1000000

/-- All sixteen numeric output columns of `calculate_adx`, in source
order.  The optional pass-through label column carries no numeric data
and is omitted from the model. -/
structure AdxColumns where
  Open : List Cell
  High : List Cell
  Low : List Cell
  Close : List Cell
  TR : List Cell
  pDM1 : List Cell
  mDM1 : List Cell
  TR14 : List Cell
  pDM14 : List Cell
  mDM14 : List Cell
  pDI14 : List Cell
  mDI14 : List Cell
  DIdiff : List Cell
  DIsum : List Cell
  DX : List Cell
  ADX : List Cell

/-- Steps 1–4 of `calculate_adx` (everything between column coercion and
the final rounding), with `N = 14` as in the source. -/
def buildColumns (o h l c : List Cell) : AdxColumns :=
  let tr := TRcol h l c
  let pdm1 := pDM1col h l
  let mdm1 := mDM1col h l
  let tr14 := wilder_sum_excel_style (fillna0 tr) 14
  let pdm14 := wilder_sum_excel_style (fillna0 pdm1) 14
  let mdm14 := wilder_sum_excel_style (fillna0 mdm1) 14
  let pdi := DIcol pdm14 tr14
  let mdi := DIcol mdm14 tr14
  let dx := replaceNonfinite (DXraw pdi mdi)
  { Open := o, High := h, Low := l, Close := c,
    TR := tr, pDM1 := pdm1, mDM1 := mdm1,
    TR14 := tr14, pDM14 := pdm14, mDM14 := mdm14,
    pDI14 := pdi, mDI14 := mdi,
    DIdiff := List.map cellAbs (List.zipWith cellSub pdi mdi),
    DIsum := List.zipWith cellAdd pdi mdi,
    DX := dx,
    ADX := adxFrom 14 (dx.map (fun x => Option.getD x 0)) }

/-- Step 5 of `calculate_adx`: `df[num_cols].round(6)` applied to every
numeric column (blank cells stay blank). -/
def roundColumns (t : AdxColumns) : AdxColumns :=
  { Open := t.Open.map (Option.map round6),
    High := t.High.map (Option.map round6),
    Low := t.Low.map (Option.map round6),
    Close := t.Close.map (Option.map round6),
    TR := t.TR.map (Option.map round6),
    pDM1 := t.pDM1.map (Option.map round6),
    mDM1 := t.mDM1.map (Option.map round6),
    TR14 := t.TR14.map (Option.map round6),
    pDM14 := t.pDM14.map (Option.map round6),
    mDM14 := t.mDM14.map (Option.map round6),
    pDI14 := t.pDI14.map (Option.map round6),
    mDI14 := t.mDI14.map (Option.map round6),
    DIdiff := t.DIdiff.map (Option.map round6),
    DIsum := t.DIsum.map (Option.map round6),
    DX := t.DX.map (Option.map round6),
    ADX := t.ADX.map (Option.map round6) }

/-- The input table: header names paired with their (numeric-coerced)
cell columns.  Non-numeric cells are already `none` (the
`pd.to_numeric(errors='coerce')` boundary of the model). -/
structure Table where
  cols : List (String × List Cell)

/-- The header row of the table. -/
def headersOf (t : Table) : List String := t.cols.map Prod.fst

/-- Column access `df[name]` (first column with that header). -/
def getCol (t : Table) (name : String) : List Cell :=
  Option.getD (Option.map Prod.snd (t.cols.find? (fun p => p.1 = name))) []

/-- Substring test: `needle in hay` on Python strings. -/
def strContains (hay needle : String) : Bool :=
  (List.range (hay.toList.length + 1)).any
    (fun i => decide (List.take needle.toList.length (List.drop i hay.toList) = needle.toList))

/-- The dict `lower = {c.lower(): c for c in df.columns}`: first
occurrence fixes the key position, a later duplicate key overwrites the
value. -/
def lowerMap (cols : List String) : List (String × String) :=
  cols.foldl
    (fun m c =>
      if m.any (fun p => p.1 = c.toLower) then
        m.map (fun p => if p.1 = c.toLower then (p.1, c) else p)
      else m ++ [(c.toLower, c)])
    []

/-- Key lookup `opt in lower` / `lower[opt]`. -/
def lookupLower (m : List (String × String)) (k : String) : Option String :=
  Option.map Prod.snd (m.find? (fun p => p.1 = k))

/-- One key of `detect_ohlc_columns`: try the exact candidate names in
order, then fall back to the first header whose lowercase form contains
the key as a substring. -/
def findOHLC (m : List (String × String)) (key : String) (opts : List String) : Option String :=
  match opts.findSome? (fun o => lookupLower m o) with
  | some c => some c
  | none => Option.map Prod.snd (m.find? (fun p => strContains p.1 key))

/-- The candidate table of `detect_ohlc_columns`. -/
def ohlcCandidates : List (String × List String) :=
  [("open", ["open", "o"]), ("high", ["high", "h"]),
   ("low", ["low", "l"]), ("close", ["close", "c"])]

/-- `detect_ohlc_columns(df)`: for each of open/high/low/close, the
detected original header (or `None`). -/
def detect_ohlc_columns (cols : List String) : List (String × Option String) :=
  ohlcCandidates.map (fun kv => (kv.1, findOHLC (lowerMap cols) kv.1 kv.2))

/-- `missing = [k for k, v in ohlc_map.items() if v is None]`. -/
def missingFields (cols : List String) : List String :=
  (detect_ohlc_columns cols).filterMap
    (fun p => match p.2 with | none => some p.1 | some _ => none)

/-- The exceptions `calculate_adx` can raise: the explicit `ValueError`
naming the missing OHLC fields, and the pandas `KeyError` raised by
`df[['Open', 'High', 'Low', 'Close']]` when the rename left one of the
canonical labels absent (its payload lists the labels not in the index). -/
inductive AdxError where
  | missingColumns (fields : List String)
  | keyError (labels : List String)
deriving DecidableEq

/-- One insertion into a Python dict literal: a duplicate key keeps its
first position but takes the later value. -/
def dictInsert (m : List (String × String)) (k v : String) : List (String × String) :=
  if m.any (fun p => p.1 = k) then m.map (fun p => if p.1 = k then (p.1, v) else p)
  else m ++ [(k, v)]

/-- A Python dict literal built from a key-value list (later duplicate keys
overwrite earlier values, as in the rename dict of `calculate_adx` when one
header was detected for several OHLC fields). -/
def pythonDict (l : List (String × String)) : List (String × String) :=
  l.foldl (fun m kv => dictInsert m kv.1 kv.2) []

/-- `df.rename(columns=m)`: every column label that is a key of `m` is
replaced by its value; other labels are unchanged. -/
def renameHeaders (m : List (String × String)) (cols : List String) : List String :=
  cols.map (fun c =>
    match m.find? (fun p => p.1 = c) with
    | some p => p.2
    | none => c)

/-- The canonical labels that `df[['Open', 'High', 'Low', 'Close']]` fails
to find after the rename; pandas raises `KeyError` naming exactly these. -/
def missingCanonical (renamed : List String) : List String :=
  ["Open", "High", "Low", "Close"].filter (fun k => decide (¬ k ∈ renamed))

/-- `calculate_adx(input_df)`: detect the OHLC columns and raise a
`ValueError` naming every missing field if any could not be identified;
otherwise rename the detected columns to the canonical labels through a
Python dict (a header detected for several fields collapses to the last
canonical name) and project `df[['Open', 'High', 'Low', 'Close']]`, raising
`KeyError` if a canonical label is absent after the rename; then run the
numeric pipeline and round for display.  When the projection succeeds, each
canonical column is the column found under its detected original header.
Either error produces no output at all (the `Except` models the raised
exception). -/
def calculate_adx (t : Table) : Except AdxError AdxColumns :=
  let m := lowerMap (headersOf t)
  match findOHLC m "open" ["open", "o"], findOHLC m "high" ["high", "h"],
      findOHLC m "low" ["low", "l"], findOHLC m "close" ["close", "c"] with
  | some o, some h, some l, some c =>
      let renamed := renameHeaders
        (pythonDict [(o, "Open"), (h, "High"), (l, "Low"), (c, "Close")]) (headersOf t)
      if missingCanonical renamed = [] then
        Except.ok (roundColumns (buildColumns (getCol t o) (getCol t h) (getCol t l) (getCol t c)))
      else Except.error (AdxError.keyError (missingCanonical renamed))
  | _, _, _, _ => Except.error (AdxError.missingColumns (missingFields (headersOf t)))

theorem setHead_zero (l : List Cell) (h : l ≠ []) : (setHead l)[0]? = some none := by
  cases l with
  | nil => exact absurd rfl h
  | cons x t => simp [setHead]

theorem setHead_succ (l : List Cell) (j : ℕ) : (setHead l)[j + 1]? = l[j + 1]? := by
  cases l <;> simp [setHead]

theorem shift1_succ (l : List Cell) (j : ℕ) (h : j + 1 < l.length) :
    (shift1 l)[j + 1]? = l[j]? := by
  unfold shift1
  rw [List.getElem?_take, if_pos h, List.getElem?_cons_succ]

theorem shift1_zero (l : List Cell) (h : 0 < l.length) : (shift1 l)[0]? = some none := by
  unfold shift1
  rw [List.getElem?_take, if_pos h, List.getElem?_cons_zero]

theorem nansum_const (l : List Cell) (r : ℚ) (h : ∀ x ∈ l, x = some r) :
    nansum l = l.length * r := by
  induction l with
  | nil => simp [nansum]
  | cons x t ih =>
      have hx : x = some r := h x (List.mem_cons_self x t)
      have ht : nansum t = t.length * r := ih (fun y hy => h y (List.mem_cons_of_mem x hy))
      simp only [nansum, List.map_cons, List.sum_cons, hx, Option.getD_some, List.length_cons]
      rw [show nansum t = (t.map (fun x => Option.getD x 0)).sum from rfl] at ht
      rw [ht]
      push_cast
      ring

theorem take_drop_const (l : List ℚ) (k m : ℕ) (V : ℚ)
    (h : ∀ j, j < m → l[k + j]? = some V) :
    List.take m (List.drop k l) = List.replicate m V := by
  apply List.ext_getElem?
  intro i
  rw [List.getElem?_take, List.getElem?_replicate]
  by_cases hi : i < m
  · rw [if_pos hi, if_pos hi, List.getElem?_drop]
    exact h i hi
  · rw [if_neg hi, if_neg hi]

/-- C1 (counterexample): the claim places the Wilder seed at index `N-1 = 13`.
On the series of 15 identical values 1 (length ≥ N+1), the code's smoothed
series is undefined at index 13, and its first defined value is at index 14,
where it equals the sum of the raw values at indices 1..14. -/
theorem C1_counterexample :
    (wilder_sum_excel_style (List.replicate 15 (some (1 : ℚ))) 14)[13]? = some none ∧
    (wilder_sum_excel_style (List.replicate 15 (some (1 : ℚ))) 14)[14]? = some (some 14) := by
  constructor
  · with_unfolding_all rfl
  · with_unfolding_all rfl

/-- C1 (amended): for every raw series of length at least N+1 = 15 with N = 14,
the smoothed series is undefined at every index below N = 14, its seed sits at
index N and equals the sum of R[1..N]; in particular, for a series of at least
15 identical values R the seed at index 14 equals 14*R, and (when index 15
exists) the value at index 15 equals 14*R - (14*R)/14 + R = 14*R. -/
theorem C1_amended (R : List Cell) (h : 15 ≤ R.length) :
    ((∀ i, i < 14 → (wilder_sum_excel_style R 14)[i]? = some none) ∧
      (wilder_sum_excel_style R 14)[14]? =
        some (some (nansum (List.take 14 (List.drop 1 R))))) ∧
    (∀ r : ℚ, (∀ x ∈ R, x = some r) →
      (wilder_sum_excel_style R 14)[14]? = some (some (14 * r)) ∧
      (16 ≤ R.length → (wilder_sum_excel_style R 14)[15]? = some (some (14 * r)))) := by
  have hlen : 14 < R.length := by omega
  refine ⟨⟨fun i hi => wilder_below_seed R 14 hlen i hi, wilder_seed R 14 hlen⟩, ?_⟩
  intro r hr
  have hsum : nansum (List.take 14 (List.drop 1 R)) = 14 * r := by
    have hmem : ∀ x ∈ List.take 14 (List.drop 1 R), x = some r := by
      intro x hx
      exact hr x (List.mem_of_mem_drop (List.mem_of_mem_take hx))
    have hlen14 : (List.take 14 (List.drop 1 R)).length = 14 := by
      rw [List.length_take, List.length_drop]
      omega
    rw [nansum_const _ r hmem, hlen14]
    norm_num
  have hseed : (wilder_sum_excel_style R 14)[14]? = some (some (14 * r)) := by
    rw [wilder_seed R 14 hlen, hsum]
  refine ⟨hseed, fun h16 => ?_⟩
  have h15 : 15 < R.length := by omega
  have hx : R[15]? = some (some r) := by
    rw [List.getElem?_eq_getElem h15]
    exact congrArg some (hr _ (List.getElem_mem h15))
  have h2 := wilder_rec R 14 15 (by omega) (by omega) (14 * r) r (by simpa using hseed) hx
  rw [h2]
  simp only [Option.some.injEq]
  push_cast
  field_simp

/-- C1 (amended, witness): instance at the series of 15 ones. -/
theorem C1_amended_witness :
    (wilder_sum_excel_style (List.replicate 15 (some (1 : ℚ))) 14)[14]? =
      some (some (14 * 1)) :=
  ((C1_amended (List.replicate 15 (some (1 : ℚ))) (by decide)).2 1
    (fun x hx => List.eq_of_mem_replicate hx)).1

/-- C2: above the seed index (the first index at which the smoothed series is
defined, index 14), every smoothed value satisfies
S[i] = S[i-1] - S[i-1]/14 + R[i]. -/
theorem C2_recursion (R : List Cell) (i : ℕ) (hi : 14 < i) (hlen : i < R.length)
    (p x : ℚ)
    (hp : (wilder_sum_excel_style R 14)[i - 1]? = some (some p))
    (hx : R[i]? = some (some x)) :
    (wilder_sum_excel_style R 14)[i]? = some (some (p - p / 14 + x)) := by
  have := wilder_rec R 14 i hi hlen p x hp hx
  simpa using this

/-- C2 (witness): instance on the series of 16 ones at index 15. -/
theorem C2_witness :
    (wilder_sum_excel_style (List.replicate 16 (some (1 : ℚ))) 14)[15]? =
      some (some (14 - 14 / 14 + 1)) :=
  C2_recursion (List.replicate 16 (some (1 : ℚ))) 15 (by decide) (by decide) 14 1
    (by with_unfolding_all rfl) (by with_unfolding_all rfl)

/-- C3: for every DX series long enough to reach index 2N-1 = 27 (N = 14),
the ADX column is undefined below index 27, equals the arithmetic mean of
DX[14..27] at index 27, and satisfies ADX[i] = (ADX[i-1]*13 + DX[i]) / 14
above it; if DX is a constant V on indices 14..27 then ADX[27] = V and
ADX[28] = (V*13 + DX[28]) / 14. -/
theorem C3_adx (dx : List ℚ) (hlen : 27 < dx.length) :
    (∀ i, i < 27 → (adxFrom 14 dx)[i]? = some none) ∧
    (adxFrom 14 dx)[27]? = some (some ((List.take 14 (List.drop 14 dx)).sum / 14)) ∧
    (∀ i, 27 < i → i < dx.length → ∀ p v,
      (adxFrom 14 dx)[i - 1]? = some (some p) → dx[i]? = some v →
      (adxFrom 14 dx)[i]? = some (some ((p * 13 + v) / 14))) ∧
    (∀ V : ℚ, (∀ j, j ≤ 27 → 14 ≤ j → dx[j]? = some V) →
      (adxFrom 14 dx)[27]? = some (some V) ∧
      ∀ w, dx[28]? = some w →
        (adxFrom 14 dx)[28]? = some (some ((V * 13 + w) / 14))) := by
  have hseed : (adxFrom 14 dx)[27]? =
      some (some ((List.take 14 (List.drop 14 dx)).sum / 14)) := by
    have := adxFrom_seed 14 dx (by omega)
    norm_num at this
    exact this
  have hrec : ∀ i, 27 < i → i < dx.length → ∀ p v,
      (adxFrom 14 dx)[i - 1]? = some (some p) → dx[i]? = some v →
      (adxFrom 14 dx)[i]? = some (some ((p * 13 + v) / 14)) := by
    intro i h1 h2 p v hp hv
    have := adxFrom_rec 14 dx (by norm_num) i (by omega) h2 p v hp hv
    norm_num [adxStep] at this
    exact this
  refine ⟨fun i hi => adxFrom_below_seed 14 dx (by omega) i (by omega), hseed, hrec, ?_⟩
  intro V hV
  have hconst : List.take 14 (List.drop 14 dx) = List.replicate 14 V :=
    take_drop_const dx 14 14 V (fun j hj => hV (14 + j) (by omega) (by omega))
  have hseedV : (adxFrom 14 dx)[27]? = some (some V) := by
    rw [hseed, hconst, List.sum_replicate]
    norm_num
  refine ⟨hseedV, fun w hw => ?_⟩
  have h28 : 28 < dx.length := by
    by_contra hc
    rw [List.getElem?_eq_none (by omega)] at hw
    exact Option.noConfusion hw
  exact hrec 28 (by omega) h28 V w (by simpa using hseedV) hw

/-- C3 (witness): on a DX series of 29 copies of 100, ADX at index 27 is 100. -/
theorem C3_witness :
    (adxFrom 14 (List.replicate 29 (100 : ℚ)))[27]? = some (some 100) :=
  ((C3_adx (List.replicate 29 (100 : ℚ)) (by decide)).2.2.2 100
    (fun j h1 h2 => by rw [List.getElem?_replicate, if_pos (by omega)])).1

/-- A 16-row table whose Open/High/Low/Close are all the constant 5: every
TR and DM value is 0, so TR14 at index 14 is defined and equals 0. -/
def flat16 : List Cell := List.replicate 16 (some 5)

/-- C4 (counterexample): on the all-flat table, TR14 at index 14 is defined
and equals 0, yet +DI14 and -DI14 at index 14 are undefined (float NaN from
0.0/0.0) — not the value 0 the claim requires. -/
theorem C4_counterexample :
    (buildColumns flat16 flat16 flat16 flat16).TR14[14]? = some (some 0) ∧
    (buildColumns flat16 flat16 flat16 flat16).pDI14[14]? = some none ∧
    (buildColumns flat16 flat16 flat16 flat16).mDI14[14]? = some none := by
  refine ⟨?_, ?_, ?_⟩ <;> with_unfolding_all rfl

/-- C4 (amended): where TR14[i] is defined and zero, the computed DI value
at i is undefined (a non-finite float), not 0 and not an error; where TR14[i]
is defined and nonzero, the DI value is 100 * (DM14[i] / TR14[i]).  Both
`'+DI14'` and `'-DI14'` are `DIcol` applied to the respective DM column. -/
theorem C4_amended (dm14 tr14 : List Cell) (i : ℕ) (d t : ℚ)
    (hd : dm14[i]? = some (some d)) (ht : tr14[i]? = some (some t)) :
    (t = 0 → (DIcol dm14 tr14)[i]? = some none) ∧
    (t ≠ 0 → (DIcol dm14 tr14)[i]? = some (some (100 * (d / t)))) := by
  constructor
  · intro h0
    simp [DIcol, List.getElem?_zipWith, hd, ht, cellDiv, cellMul, h0]
  · intro h0
    simp [DIcol, List.getElem?_zipWith, hd, ht, cellDiv, cellMul, h0]
    ring

/-- C4 (amended, witness): instance with DM14 = 1, TR14 = 2 at index 0. -/
theorem C4_amended_witness :
    (DIcol [some (1 : ℚ)] [some (2 : ℚ)])[0]? = some (some (100 * (1 / 2))) :=
  (C4_amended [some (1 : ℚ)] [some (2 : ℚ)] 0 1 2 (by with_unfolding_all rfl)
    (by with_unfolding_all rfl)).2 (by norm_num)

/-- A 2-row table whose Close cell in row 0 is non-numeric (undefined). -/
def c5Table : Table :=
  ⟨[("Open", [some 1, some 1]), ("High", [some 10, some 3]),
    ("Low", [some 1, some 1]), ("Close", [none, some 2])]⟩

/-- C5 (counterexample): on `c5Table`, the TR formula at row 1 touches the
undefined Close of row 0 and still produces the defined value 2 (the NaN
candidates are skipped by the row-wise max), and the output DX cell at row 0
— below the first defined DI index — is rendered as the number 0, not blank. -/
theorem C5_counterexample :
    Except.map (fun out => (out.TR[1]?, out.DX[0]?)) (calculate_adx c5Table) =
      Except.ok (some (some 2), some (some 0)) := by
  with_unfolding_all rfl

/-- C5 (amended): undefined values propagate as undefined through the scalar
subtraction, addition, multiplication, division and absolute-value operations,
but not through every downstream formula: the three-way TR maximum skips
undefined candidates, the DM selection yields 0 on comparisons with an
undefined operand, and every cell of the output DX column is defined
(undefined DX entries are replaced by 0 and render as 0, not blank);
undefined cells of the other numeric columns survive display rounding as
blanks. -/
theorem C5_amended :
    (∀ a : Cell,
      cellSub a none = none ∧ cellSub none a = none ∧
      cellAdd a none = none ∧ cellAdd none a = none ∧
      cellMul a none = none ∧ cellMul none a = none ∧
      cellDiv a none = none ∧ cellDiv none a = none ∧ cellAbs none = none) ∧
    (∀ x : ℚ, cellMax (some x) none = some x ∧ cellMax none (some x) = some x) ∧
    (∀ a : Cell, dmSelect none a = some 0 ∧ dmSelect a none = some 0) ∧
    (∀ o h l c : List Cell, ∀ x ∈ (buildColumns o h l c).DX, ∃ v, x = some v) ∧
    (∀ col : List Cell, ∀ i : ℕ,
      ((col.map (Option.map round6))[i]? = some none ↔ col[i]? = some none)) := by
  refine ⟨?_, ?_, ?_, ?_, ?_⟩
  · intro a
    cases a <;> simp [cellSub, cellAdd, cellMul, cellDiv, cellAbs]
  · intro x
    exact ⟨rfl, rfl⟩
  · intro a
    cases a <;> simp [dmSelect]
  · intro o h l c x hx
    have hL : ∃ L, (buildColumns o h l c).DX = replaceNonfinite L := ⟨_, rfl⟩
    obtain ⟨L, hLeq⟩ := hL
    rw [hLeq] at hx
    simp only [replaceNonfinite, List.mem_map] at hx
    obtain ⟨y, _, hy⟩ := hx
    exact ⟨_, hy.symm⟩
  · intro col i
    rw [List.getElem?_map]
    cases hc : col[i]? with
    | none => simp
    | some z => cases z <;> simp

/-- C5 (amended, witness): subtraction with an undefined right operand. -/
theorem C5_amended_witness : cellSub (some (3 : ℚ)) none = none :=
  (C5_amended.1 (some 3)).1

/-- C6: if any of Open/High/Low/Close cannot be identified by the header
matching rules, `calculate_adx` raises the error listing exactly the missing
fields before building any derived column (the error carries no partial
output); if all four are identified, that missing-columns error is never
raised — the computation returns a table, or fails with the distinct
`KeyError` of the canonical projection when detected headers collide. -/
theorem C6_missing_columns (t : Table) :
    (missingFields (headersOf t) = [] →
      ∀ fields, calculate_adx t ≠ Except.error (AdxError.missingColumns fields)) ∧
    (missingFields (headersOf t) ≠ [] →
      calculate_adx t =
        Except.error (AdxError.missingColumns (missingFields (headersOf t))) ∧
      ∀ k, k ∈ missingFields (headersOf t) ↔
        (k, (none : Option String)) ∈ detect_ohlc_columns (headersOf t)) := by
  constructor
  · intro hmiss fields
    rcases h1 : findOHLC (lowerMap (headersOf t)) "open" ["open", "o"] with _ | o1 <;>
      rcases h2 : findOHLC (lowerMap (headersOf t)) "high" ["high", "h"] with _ | o2 <;>
        rcases h3 : findOHLC (lowerMap (headersOf t)) "low" ["low", "l"] with _ | o3 <;>
          rcases h4 : findOHLC (lowerMap (headersOf t)) "close" ["close", "c"] with _ | o4 <;>
            simp_all [calculate_adx, missingFields, detect_ohlc_columns, ohlcCandidates] <;>
              split <;> simp
  · intro hmiss
    rcases h1 : findOHLC (lowerMap (headersOf t)) "open" ["open", "o"] with _ | o1 <;>
      rcases h2 : findOHLC (lowerMap (headersOf t)) "high" ["high", "h"] with _ | o2 <;>
        rcases h3 : findOHLC (lowerMap (headersOf t)) "low" ["low", "l"] with _ | o3 <;>
          rcases h4 : findOHLC (lowerMap (headersOf t)) "close" ["close", "c"] with _ | o4 <;>
            refine ⟨?_, fun k => ?_⟩ <;>
              simp_all [calculate_adx, missingFields, detect_ohlc_columns, ohlcCandidates,
                Prod.mk.injEq]

/-- C6 (witness): a table with no Close-like header is rejected with the
missing-columns error naming the missing field. -/
theorem C6_witness :
    calculate_adx ⟨[("Date", []), ("Open", []), ("High", []), ("Low", [])]⟩ =
      Except.error (AdxError.missingColumns
        (missingFields (headersOf ⟨[("Date", []), ("Open", []), ("High", []), ("Low", [])]⟩))) :=
  ((C6_missing_columns ⟨[("Date", []), ("Open", []), ("High", []), ("Low", [])]⟩).2
    (by
      have hm : missingFields
          (headersOf ⟨[("Date", []), ("Open", []), ("High", []), ("Low", [])]⟩) =
          ["close"] := by with_unfolding_all rfl
      rw [hm]
      simp)).1

theorem zipWith_some {α β γ : Type} (f : α → β → γ) (as : List α) (bs : List β)
    (i : ℕ) (c : γ) (h : (List.zipWith f as bs)[i]? = some c) :
    ∃ u v, as[i]? = some u ∧ bs[i]? = some v ∧ c = f u v := by
  rw [List.getElem?_zipWith] at h
  cases hu : as[i]? with
  | none => rw [hu] at h; simp at h
  | some u =>
      cases hv : bs[i]? with
      | none => rw [hu, hv] at h; simp at h
      | some v =>
          rw [hu, hv] at h
          simp only [Option.some.injEq] at h
          exact ⟨u, v, rfl, rfl, h.symm⟩

/-- C7: in every row i > 0 whose DM cells exist, at most one of +DM 1 and
-DM 1 is nonzero (one of the two is the number 0), and when UpMove equals
DownMove both are 0. -/
theorem C7_mutual_exclusion (high low : List Cell) (i : ℕ) (h0 : 0 < i) (a b : Cell)
    (ha : (pDM1col high low)[i]? = some a) (hb : (mDM1col high low)[i]? = some b) :
    (a = some 0 ∨ b = some 0) ∧
    (∀ w : Cell, (upMoveCol high)[i]? = some w → (downMoveCol low)[i]? = some w →
      a = some 0 ∧ b = some 0) := by
  obtain ⟨j, rfl⟩ : ∃ j, i = j + 1 := ⟨i - 1, by omega⟩
  rw [pDM1col, setHead_succ] at ha
  rw [mDM1col, setHead_succ] at hb
  obtain ⟨u, d, hu, hd, hadef⟩ :=
    zipWith_some dmSelect (upMoveCol high) (downMoveCol low) (j + 1) a ha
  obtain ⟨d2, u2, hd2, hu2, hbdef⟩ :=
    zipWith_some dmSelect (downMoveCol low) (upMoveCol high) (j + 1) b hb
  have hdd : d2 = d := by
    rw [hd] at hd2
    exact (Option.some.inj hd2).symm
  have huu : u2 = u := by
    rw [hu] at hu2
    exact (Option.some.inj hu2).symm
  rw [hdd, huu] at hbdef
  constructor
  · rcases u with _ | x <;> rcases d with _ | y
    · left; rw [hadef]; simp [dmSelect]
    · left; rw [hadef]; simp [dmSelect]
    · left; rw [hadef]; simp [dmSelect]
    · by_cases hxy : y < x ∧ 0 < x
      · right
        have hn : ¬((x : ℚ) < y ∧ 0 < y) := by
          rintro ⟨hlt, _⟩
          exact absurd hxy.1 (lt_asymm hlt)
        rw [hbdef]
        simp only [dmSelect, if_neg hn]
      · left
        rw [hadef]
        simp only [dmSelect, if_neg hxy]
  · intro w hw1 hw2
    rw [hu] at hw1
    rw [hd] at hw2
    have hwu : u = w := Option.some.inj hw1
    have hwd : d = w := Option.some.inj hw2
    rw [hwu, hwd] at hadef
    rw [hwd, hwu] at hbdef
    rcases w with _ | x
    · exact ⟨by rw [hadef]; simp [dmSelect], by rw [hbdef]; simp [dmSelect]⟩
    · have hn : ¬((x : ℚ) < x ∧ 0 < x) := by
        rintro ⟨hlt, _⟩
        exact lt_irrefl x hlt
      exact ⟨by rw [hadef]; simp only [dmSelect, if_neg hn],
             by rw [hbdef]; simp only [dmSelect, if_neg hn]⟩

/-- C7 (witness): on High = [1, 3], Low = [1, 2], row 1 has +DM 1 = 2 and
-DM 1 = 0; one of the two is zero. -/
theorem C7_witness :
    ((some (2 : ℚ) : Cell) = some 0 ∨ (some (0 : ℚ) : Cell) = some 0) :=
  (C7_mutual_exclusion [some 1, some 3] [some 1, some 2] 1 (by decide)
    (some 2) (some 0) (by with_unfolding_all rfl) (by with_unfolding_all rfl)).1

theorem shift1_length (l : List Cell) : (shift1 l).length = l.length := by
  rw [shift1, List.length_take, List.length_cons]
  omega

theorem setHead_length (l : List Cell) : (setHead l).length = l.length := by
  cases l <;> simp [setHead]

theorem dmSelect_isSome (u d : Cell) : ∃ q : ℚ, dmSelect u d = some q := by
  rcases u with _ | x <;> rcases d with _ | y
  · exact ⟨0, rfl⟩
  · exact ⟨0, rfl⟩
  · exact ⟨0, rfl⟩
  · by_cases hcond : (y : ℚ) < x ∧ 0 < x
    · exact ⟨x, by simp [dmSelect, hcond]⟩
    · exact ⟨0, by simp [dmSelect, hcond]⟩

theorem TRcol_pos (high low close : List Cell) (i : ℕ) (h0 : 0 < i)
    (hlen : i < high.length) (hl : low.length = high.length)
    (hc : close.length = high.length) (hv lv cp : ℚ)
    (hh : high[i]? = some (some hv)) (hlo : low[i]? = some (some lv))
    (hcp : close[i - 1]? = some (some cp)) :
    (TRcol high low close)[i]? =
      some (some (max (max (hv - lv) |hv - cp|) |lv - cp|)) := by
  obtain ⟨j, rfl⟩ : ∃ j, i = j + 1 := ⟨i - 1, by omega⟩
  rw [TRcol, setHead_succ]
  have hshift : (shift1 close)[j + 1]? = some (some cp) := by
    rw [shift1_succ close j (by omega)]
    simpa using hcp
  simp [List.getElem?_zipWith, List.getElem?_map, hh, hlo, hshift,
    cellSub, cellAbs, cellMax]

/-- C8: for every table with at least one row and equal column lengths, row 0
of the TR, +DM 1 and -DM 1 columns is undefined regardless of the input
values; every later row has a defined TR when its operands (High, Low,
previous Close) are defined, and a defined (possibly zero) DM value when its
operands (High, Low and their predecessors) are defined. -/
theorem C8_first_row (high low close : List Cell) (hpos : 0 < high.length)
    (hl : low.length = high.length) (hc : close.length = high.length) :
    ((TRcol high low close)[0]? = some none ∧
     (pDM1col high low)[0]? = some none ∧
     (mDM1col high low)[0]? = some none) ∧
    (∀ i, 0 < i → i < high.length →
      (∀ hv lv cp : ℚ, high[i]? = some (some hv) → low[i]? = some (some lv) →
        close[i - 1]? = some (some cp) →
        ∃ v : ℚ, (TRcol high low close)[i]? = some (some v)) ∧
      (∀ hv hw lv lw : ℚ, high[i]? = some (some hv) → high[i - 1]? = some (some hw) →
        low[i]? = some (some lv) → low[i - 1]? = some (some lw) →
        (∃ v : ℚ, (pDM1col high low)[i]? = some (some v)) ∧
        (∃ v : ℚ, (mDM1col high low)[i]? = some (some v)))) := by
  have hup : (upMoveCol high).length = high.length := by
    simp [upMoveCol, List.length_zipWith, shift1_length]
  have hdown : (downMoveCol low).length = low.length := by
    simp [downMoveCol, List.length_zipWith, shift1_length]
  constructor
  · refine ⟨?_, ?_, ?_⟩
    · apply setHead_zero
      apply List.ne_nil_of_length_pos
      simp only [List.length_zipWith, List.length_map, shift1_length, hl, hc]
      omega
    · apply setHead_zero
      apply List.ne_nil_of_length_pos
      simp only [List.length_zipWith, hup, hdown, hl]
      omega
    · apply setHead_zero
      apply List.ne_nil_of_length_pos
      simp only [List.length_zipWith, hup, hdown, hl]
      omega
  · intro i hi0 hilen
    constructor
    · intro hv lv cp hh hlo hcp
      exact ⟨_, TRcol_pos high low close i hi0 hilen hl hc hv lv cp hh hlo hcp⟩
    · intro hv hw lv lw hh1 hh2 hl1 hl2
      obtain ⟨j, rfl⟩ : ∃ j, i = j + 1 := ⟨i - 1, by omega⟩
      have hu : ∃ u, (upMoveCol high)[j + 1]? = some u := by
        have hlt : j + 1 < (upMoveCol high).length := by omega
        exact ⟨_, List.getElem?_eq_getElem hlt⟩
      have hd : ∃ d, (downMoveCol low)[j + 1]? = some d := by
        have hlt : j + 1 < (downMoveCol low).length := by omega
        exact ⟨_, List.getElem?_eq_getElem hlt⟩
      obtain ⟨u, hu⟩ := hu
      obtain ⟨d, hd⟩ := hd
      obtain ⟨q1, hq1⟩ := dmSelect_isSome u d
      obtain ⟨q2, hq2⟩ := dmSelect_isSome d u
      constructor
      · refine ⟨q1, ?_⟩
        rw [pDM1col, setHead_succ, List.getElem?_zipWith, hu, hd]
        simp [hq1]
      · refine ⟨q2, ?_⟩
        rw [mDM1col, setHead_succ, List.getElem?_zipWith, hd, hu]
        simp [hq2]

/-- C8 (witness): on a 2-row table, row 0 of TR is blank. -/
theorem C8_witness :
    (TRcol [some (1 : ℚ), some 2] [some 1, some 2] [some 1, some 2])[0]? = some none :=
  (C8_first_row [some (1 : ℚ), some 2] [some 1, some 2] [some 1, some 2]
    (by decide) rfl rfl).1.1

/-- C9: for every row i > 0 with defined High, Low and previous Close, TR[i]
is the maximum of High-Low, |High - prev Close| and |Low - prev Close|;
consequently, when High ≥ Low, TR[i] is at least High-Low and nonnegative. -/
theorem C9_true_range (high low close : List Cell) (i : ℕ) (h0 : 0 < i)
    (hlen : i < high.length) (hl : low.length = high.length)
    (hc : close.length = high.length) (hv lv cp : ℚ)
    (hh : high[i]? = some (some hv)) (hlo : low[i]? = some (some lv))
    (hcp : close[i - 1]? = some (some cp)) :
    (TRcol high low close)[i]? =
      some (some (max (hv - lv) (max |hv - cp| |lv - cp|))) ∧
    (lv ≤ hv →
      hv - lv ≤ max (hv - lv) (max |hv - cp| |lv - cp|) ∧
      0 ≤ max (hv - lv) (max |hv - cp| |lv - cp|)) := by
  constructor
  · rw [TRcol_pos high low close i h0 hlen hl hc hv lv cp hh hlo hcp, max_assoc]
  · intro hle
    refine ⟨le_max_left _ _, ?_⟩
    have hnn : (0 : ℚ) ≤ hv - lv := by linarith
    exact le_trans hnn (le_max_left _ _)

/-- C9 (witness): a concrete 2-row table where TR[1] = max(1, 2, 1) = 2. -/
theorem C9_witness :
    (TRcol [some (1 : ℚ), some 3] [some 1, some 2] [some 1, some 2])[1]? =
      some (some (max ((3 : ℚ) - 2) (max |(3 : ℚ) - 1| |(2 : ℚ) - 1|))) :=
  (C9_true_range [some (1 : ℚ), some 3] [some 1, some 2] [some 1, some 2] 1
    (by decide) (by decide) rfl rfl 3 2 1 (by with_unfolding_all rfl)
    (by with_unfolding_all rfl) (by with_unfolding_all rfl)).1

/-- C10: `calculate_adx` is a pure function of its input table: identical
inputs give identical outputs.  (The source copies the input data frame at
entry and never mutates the argument; the model is a function of the table
value alone, with no other state.) -/
theorem C10_pure (t1 t2 : Table) (h : t1 = t2) :
    calculate_adx t1 = calculate_adx t2 := by
  rw [h]

/-- C10 (witness): the computation on a concrete 1-row table agrees with
itself. -/
theorem C10_witness :
    calculate_adx
        ⟨[("Open", [some 1]), ("High", [some 1]), ("Low", [some 1]), ("Close", [some 1])]⟩ =
      calculate_adx
        ⟨[("Open", [some 1]), ("High", [some 1]), ("Low", [some 1]), ("Close", [some 1])]⟩ :=
  C10_pure
    ⟨[("Open", [some 1]), ("High", [some 1]), ("Low", [some 1]), ("Close", [some 1])]⟩
    ⟨[("Open", [some 1]), ("High", [some 1]), ("Low", [some 1]), ("Close", [some 1])]⟩
    rfl
